import Mathlib

/-!
Verification of the card-battle system (卡牌管理系统, versions 0.1 and 0.2):
the Card scoring model, the element type-advantage multiplier lookup
(`calculate_attack`), and the round-based battle resolver
(`simulate_battle`).  Battle arithmetic is modelled over ℚ: Python's
`x * 1.5` and `x * 0.5` are exact halves, and snapshot hp values can leave
the integers mid-battle.  Version 0.2 is the revised ruleset (defense
weight 4 in the score, 20-round cap); version 0.1 is the original
(defense weight 3, capless loop).
-/

/-- A card value: the five raw fields plus the derived `score`
(set by `Card.__init__` and by `modify_card`). -/
structure Card where
  name : String
  hp : ℚ
  attack : ℚ
  defense : ℚ
  element : String
  rarity : String
  score : ℚ
  deriving Repr, DecidableEq

/-- `Card.__init__` of version 0.2: `self.score = hp + 4 * attack + 4 * defense`. -/
def mkCard2 (name : String) (hp attack defense : ℚ) (element rarity : String) : Card :=
  ⟨name, hp, attack, defense, element, rarity, hp + 4 * attack + 4 * defense⟩

/-- `Card.__init__` of version 0.1: `self.score = hp + 4 * attack + 3 * defense`. -/
def mkCard1 (name : String) (hp attack defense : ℚ) (element rarity : String) : Card :=
  ⟨name, hp, attack, defense, element, rarity, hp + 4 * attack + 3 * defense⟩

/-- `CardManager.modify_card` of version 0.2 (the field-update part):
each field keeps its old value when no new one is given (`int(new_hp) if
new_hp else card.hp`, an empty input line is modelled as `none`), and
`card.score` is re-derived from the updated hp/attack/defense. -/
def modify_card (card : Card) (newHp newAttack newDefense : Option ℚ)
    (newElement newRarity : Option String) : Card :=
  let hp := newHp.getD card.hp
  let attack := newAttack.getD card.attack
  let defense := newDefense.getD card.defense
  let element := newElement.getD card.element
  let rarity := newRarity.getD card.rarity
  ⟨card.name, hp, attack, defense, element, rarity, hp + 4 * attack + 4 * defense⟩

/-- `self.element_relations` of version 0.2: each element maps to the
list it beats (`'克'`) and the list it loses to (`'被克'`). -/
def element_relations : List (String × List String × List String) :=
  [("火", (["木", "冰", "兽"], ["水", "岩"])),
   ("水", (["火"], ["电"])),
   ("木", (["电", "土"], ["火"])),
   ("电", (["水"], ["木", "光明"])),
   ("冰", (["龙"], ["火", "神秘"])),
   ("土", (["火"], ["水", "木"])),
   ("岩", (["电", "虫"], ["水", "木", "神秘"])),
   ("虫", (["木"], ["龙"])),
   ("兽", (["水", "虫"], ["火", "电"])),
   ("龙", (["龙"], ["龙", "神秘"])),
   ("神秘", (["冰"], ["暗"])),
   ("光明", (["暗"], ["神秘"])),
   ("暗", (["神秘"], ["光明"]))]

/-- `self.element_relations.get(e, {})` of version 0.2 (as an `Option`). -/
def relLookup (e : String) : Option (List String × List String) :=
  (element_relations.find? (fun p => p.1 == e)).map (·.2)

/-- `relations.get('克', [])` of version 0.2. -/
def beatsOf (e : String) : List String := ((relLookup e).map (·.1)).getD []

/-- `relations.get('被克', [])` of version 0.2. -/
def losesOf (e : String) : List String := ((relLookup e).map (·.2)).getD []

/-- `CardManager.calculate_attack` of version 0.2: membership of the
defender's element in the attacker's beats list gives 1.5 × attack,
otherwise membership in the loses-to list gives 0.5 × attack, otherwise
the base attack. -/
def calculate_attack (attacker defender : Card) : ℚ :=
  if defender.element ∈ beatsOf attacker.element then attacker.attack * (3 / 2)
  else if defender.element ∈ losesOf attacker.element then attacker.attack * (1 / 2)
  else attacker.attack

/-- A value stored under `'克'` / `'被克'` in version 0.1's relation
table: a single element string, except for 土 which stores the empty
list. -/
inductive RelVal where
  | single (s : String)
  | emptyList
  deriving Repr, DecidableEq

/-- `self.element_relations` of version 0.1. -/
def element_relations1 : List (String × RelVal × RelVal) :=
  [("火", (.single "木", .single "水")),
   ("水", (.single "火", .single "电")),
   ("电", (.single "水", .single "木")),
   ("木", (.single "电", .single "火")),
   ("土", (.emptyList, .emptyList))]

/-- Python's `value == defender_element` in version 0.1's
`calculate_attack`, where `value` is `relations.get('克')` (a string, the
empty list for 土, or `None` when the attacker element is unlisted):
comparison is `True` only for an equal string. -/
def relValEqStr : Option RelVal → String → Bool
  | some (.single s), d => s == d
  | some .emptyList, _ => false
  | none, _ => false

/-- `CardManager.calculate_attack` of version 0.1: equality of the
defender's element with the single stored beats / loses-to entry. -/
def calculate_attack1 (attacker defender : Card) : ℚ :=
  let rel := (element_relations1.find? (fun p => p.1 == attacker.element)).map (·.2)
  if relValEqStr (rel.map (·.1)) defender.element then attacker.attack * (3 / 2)
  else if relValEqStr (rel.map (·.2)) defender.element then attacker.attack * (1 / 2)
  else attacker.attack

/-- `damage = max(1, attack - defense) if attack > defense else 1`
(identical in both versions). -/
def dmg (power defense : ℚ) : ℚ :=
  if power > defense then max 1 (power - defense) else 1

/-- `damage1` of a round in version 0.2: what snapshot 1 deals to
snapshot 2, computed from the pre-round state. -/
def damage1Of (c1 c2 : Card) : ℚ := dmg (calculate_attack c1 c2) c2.defense

/-- `damage2` of a round in version 0.2. -/
def damage2Of (c1 c2 : Card) : ℚ := dmg (calculate_attack c2 c1) c1.defense

/-- Snapshot 1 after one round of version 0.2: `c1.hp -= damage2` then
`c1.hp = max(0, c1.hp)`; no other field (in particular not `score`) is
touched. -/
def afterRound1 (c1 c2 : Card) : Card := { c1 with hp := max 0 (c1.hp - damage2Of c1 c2) }

/-- Snapshot 2 after one round of version 0.2. -/
def afterRound2 (c1 c2 : Card) : Card := { c2 with hp := max 0 (c2.hp - damage1Of c1 c2) }

/-- One line of the battle log: what the round prints (both effective
attacks, both damages, both hp values after the round). -/
structure RoundRec where
  roundNum : Nat
  attack1 : ℚ
  attack2 : ℚ
  damage1 : ℚ
  damage2 : ℚ
  hp1After : ℚ
  hp2After : ℚ
  deriving Repr, DecidableEq

/-- The log record of round `n` fought from pre-round state `(c1, c2)`. -/
def roundRecOf (n : Nat) (c1 c2 : Card) : RoundRec :=
  ⟨n, calculate_attack c1 c2, calculate_attack c2 c1, damage1Of c1 c2, damage2Of c1 c2,
   (afterRound1 c1 c2).hp, (afterRound2 c1 c2).hp⟩

/-- Final state of the round loop: the full round log, both snapshots,
and the value of `round_num` when the loop exits. -/
structure BattleEnd where
  log : List RoundRec
  c1 : Card
  c2 : Card
  roundNum : Nat
  deriving Repr, DecidableEq

/-- The round loop of version 0.2's `simulate_battle`:
`while c1.hp > 0 and c2.hp > 0 and round_num <= 20`, with
`round_num += 1` at the end of each round.  The loop is embedded with a
fuel argument; fuel 21 is enough for the guard to decide every exit
(proved below). -/
def runBattle2 (roundNum : Nat) (fuel : Nat) (c1 c2 : Card) : BattleEnd :=
  match fuel with
  | 0 => ⟨[], c1, c2, roundNum⟩
  | f + 1 =>
    if 0 < c1.hp ∧ 0 < c2.hp ∧ roundNum ≤ 20 then
      let rest := runBattle2 (roundNum + 1) f (afterRound1 c1 c2) (afterRound2 c1 c2)
      ⟨roundRecOf roundNum c1 c2 :: rest.log, rest.c1, rest.c2, rest.roundNum⟩
    else ⟨[], c1, c2, roundNum⟩

/-- `damage1` of a round in version 0.1 (same formula, version 0.1's
multiplier lookup). -/
def damage1Of1 (c1 c2 : Card) : ℚ := dmg (calculate_attack1 c1 c2) c2.defense

/-- `damage2` of a round in version 0.1. -/
def damage2Of1 (c1 c2 : Card) : ℚ := dmg (calculate_attack1 c2 c1) c1.defense

/-- Snapshot 1 after one round of version 0.1. -/
def afterRound1v1 (c1 c2 : Card) : Card := { c1 with hp := max 0 (c1.hp - damage2Of1 c1 c2) }

/-- Snapshot 2 after one round of version 0.1. -/
def afterRound2v1 (c1 c2 : Card) : Card := { c2 with hp := max 0 (c2.hp - damage1Of1 c1 c2) }

/-- The round loop of version 0.1's `simulate_battle`:
`while c1.hp > 0 and c2.hp > 0`, no round cap, embedded with fuel. -/
def runBattle1 (fuel : Nat) (c1 c2 : Card) : Card × Card :=
  match fuel with
  | 0 => (c1, c2)
  | f + 1 =>
    if 0 < c1.hp ∧ 0 < c2.hp then
      runBattle1 f (afterRound1v1 c1 c2) (afterRound2v1 c1 c2)
    else (c1, c2)

/-- The final verdict. -/
inductive Verdict where
  | draw
  | p1Wins
  | p2Wins
  deriving Repr, DecidableEq

/-- The verdict block at the end of version 0.2's `simulate_battle`,
evaluated on the final snapshots and the final `round_num`. -/
def battleVerdict (c1 c2 : Card) (round_num : Nat) : Verdict :=
  if round_num ≥ 20 then
    if (c1.hp ≤ 0 ∧ c2.hp ≤ 0) ∨ c1.hp = c2.hp then .draw
    else if c1.hp > c2.hp then .p1Wins
    else .p2Wins
  else if c1.hp ≤ 0 ∧ c2.hp ≤ 0 then .draw
  else if c1.hp ≤ 0 then .p2Wins
  else .p1Wins

/-- What `simulate_battle` reports: one of the three input-validation
failures, or a finished duel with its verdict. -/
inductive SimOutcome where
  | errNotEnoughCards
  | errInvalidIndex
  | errValueError
  | finished (verdict : Verdict)
  deriving Repr, DecidableEq

/-- Fallback card for the (unreachable, bounds-checked) list accesses. -/
def dummyCard : Card := mkCard2 "" 0 0 0 "" ""

/-- The private copy made at duel start:
`Card(card1.name, card1.hp, ...)` — a fresh `Card` built by the
constructor from the selected card's fields. -/
def snapshotOf (c : Card) : Card :=
  mkCard2 c.name c.hp c.attack c.defense c.element c.rarity

/-- The duel fought in the valid-selection branch of `simulate_battle`:
the round loop on the two snapshots of the cards at (1-based) positions
`n1` and `n2`. -/
def duelOf (cards : List Card) (n1 n2 : Int) : BattleEnd :=
  runBattle2 1 21 (snapshotOf ((cards.get? (n1 - 1).toNat).getD dummyCard))
    (snapshotOf ((cards.get? (n2 - 1).toNat).getD dummyCard))

/-- `CardManager.simulate_battle` of version 0.2.  `input1`/`input2` are
the results of `int(input(...))` (`none` when parsing raises
`ValueError`).  Returns the outcome, the round log, and the manager's
card list after the call. -/
def simulate_battle (cards : List Card) (input1 input2 : Option Int) :
    SimOutcome × List RoundRec × List Card :=
  if cards.length < 2 then (.errNotEnoughCards, [], cards)
  else
    match input1, input2 with
    | some n1, some n2 =>
      if n1 - 1 < 0 ∨ (cards.length : Int) ≤ n1 - 1 ∨ n2 - 1 < 0 ∨
          (cards.length : Int) ≤ n2 - 1 then
        (.errInvalidIndex, [], cards)
      else
        (.finished (battleVerdict (duelOf cards n1 n2).c1 (duelOf cards n1 n2).c2
            (duelOf cards n1 n2).roundNum),
         (duelOf cards n1 n2).log, cards)
    | _, _ => (.errValueError, [], cards)

/-- The verdict rule in the words of claim C2: the hp-comparison
tie-break exactly when the loop ended with neither hp at ≤ 0 (cap exit);
otherwise the knockout rule.  Compared with `battleVerdict` below. -/
def verdictSpecC2 (a b : Card) : Verdict :=
  if 0 < a.hp ∧ 0 < b.hp then
    if a.hp = b.hp then .draw
    else if b.hp < a.hp then .p1Wins
    else .p2Wins
  else if a.hp ≤ 0 ∧ b.hp ≤ 0 then .draw
  else if a.hp ≤ 0 then .p2Wins
  else .p1Wins

/-- Concrete card (used in witnesses): relation-free element, dies to one
mutual blow. -/
def wSim1 : Card := mkCard2 "甲" 1 5 0 "" "普通"

/-- Concrete card paired with `wSim1`. -/
def wSim2 : Card := mkCard2 "乙" 1 5 0 "" "普通"

/-- Concrete card: hp 3 against attack 10, one lethal round. -/
def wCap1 : Card := mkCard2 "甲" 3 10 0 "" "普通"

/-- Concrete card paired with `wCap1`. -/
def wCap2 : Card := mkCard2 "乙" 3 10 0 "" "普通"

/-- Concrete card: 火 attacker with attack 11 (odd). -/
def cHalf1 : Card := mkCard2 "甲" 50 11 0 "火" "普通"

/-- Concrete card: 水 defender with defense 5; 火 loses to 水, so the
effective power against it is 5.5. -/
def cHalf2 : Card := mkCard2 "乙" 50 3 5 "水" "普通"

/-- Concrete card: 火 attacker with attack 1. -/
def cFr1 : Card := mkCard2 "甲" 50 1 0 "火" "普通"

/-- Concrete card: 木 defender with defense 1; 火 beats 木, so the power
against it is 1.5. -/
def cFr2 : Card := mkCard2 "乙" 50 9 1 "木" "普通"

/-- Concrete card: 火, odd attack 5, hp 2 — its hp ends at 1/2. -/
def wFr1 : Card := mkCard2 "甲" 2 5 0 "火" "普通"

/-- Concrete card paired with `wFr1`: 木, dies in the first round. -/
def wFr2 : Card := mkCard2 "乙" 7 3 0 "木" "普通"

/-- Concrete card with the stale-score battle: one mutual lethal round. -/
def cSta1 : Card := mkCard2 "甲" 1 5 0 "" "普通"

/-- Concrete card paired with `cSta1`. -/
def cSta2 : Card := mkCard2 "乙" 1 5 0 "" "普通"

/-- First branch of `calculate_attack`: beats-list membership. -/
theorem calculate_attack_beats (a d : Card) (h : d.element ∈ beatsOf a.element) :
    calculate_attack a d = a.attack * (3 / 2) := by
  simp [calculate_attack, h]

/-- Second branch of `calculate_attack`: loses-to-list membership. -/
theorem calculate_attack_loses (a d : Card) (h1 : d.element ∉ beatsOf a.element)
    (h2 : d.element ∈ losesOf a.element) :
    calculate_attack a d = a.attack * (1 / 2) := by
  simp [calculate_attack, h1, h2]

/-- Third branch of `calculate_attack`: no relation. -/
theorem calculate_attack_neutral (a d : Card) (h1 : d.element ∉ beatsOf a.element)
    (h2 : d.element ∉ losesOf a.element) :
    calculate_attack a d = a.attack := by
  simp [calculate_attack, h1, h2]

/-- Concrete matchup 火 → 木 (beats). -/
theorem calc_fire_wood (a d : Card) (ha : a.element = "火") (hd : d.element = "木") :
    calculate_attack a d = a.attack * (3 / 2) :=
  calculate_attack_beats a d (by rw [ha, hd]; decide)

/-- Concrete matchup 木 → 火 (loses to). -/
theorem calc_wood_fire (a d : Card) (ha : a.element = "木") (hd : d.element = "火") :
    calculate_attack a d = a.attack * (1 / 2) :=
  calculate_attack_loses a d (by rw [ha, hd]; decide) (by rw [ha, hd]; decide)

/-- Concrete matchup 火 → 水 (loses to). -/
theorem calc_fire_water (a d : Card) (ha : a.element = "火") (hd : d.element = "水") :
    calculate_attack a d = a.attack * (1 / 2) :=
  calculate_attack_loses a d (by rw [ha, hd]; decide) (by rw [ha, hd]; decide)

/-- A card with the empty string as element has no relations. -/
theorem calc_blank (a d : Card) (ha : a.element = "") :
    calculate_attack a d = a.attack := by
  have hb : beatsOf "" = [] := by decide
  have hl : losesOf "" = [] := by decide
  exact calculate_attack_neutral a d
    (by rw [ha, hb]; exact List.not_mem_nil _)
    (by rw [ha, hl]; exact List.not_mem_nil _)

/-- The damage formula never deals less than 1. -/
theorem one_le_dmg (p d : ℚ) : 1 ≤ dmg p d := by
  unfold dmg
  split
  · exact le_max_left 1 _
  · exact le_refl 1

/-- When the power exceeds the defense by at least 1, the floor is inert. -/
theorem dmg_of_ge (p d : ℚ) (h : d + 1 ≤ p) : dmg p d = p - d := by
  unfold dmg
  rw [if_pos (by linarith), max_eq_right (by linarith)]

/-- When the power does not exceed the defense by 1, the damage is 1. -/
theorem dmg_of_lt (p d : ℚ) (h : p < d + 1) : dmg p d = 1 := by
  unfold dmg
  split
  · exact max_eq_left (by linarith)
  · rfl

/-- A false loop guard exits `runBattle2` immediately, whatever the fuel. -/
theorem runBattle2_halt (r f : Nat) (c1 c2 : Card)
    (h : ¬(0 < c1.hp ∧ 0 < c2.hp ∧ r ≤ 20)) :
    runBattle2 r f c1 c2 = ⟨[], c1, c2, r⟩ := by
  cases f with
  | zero => rfl
  | succ f => rw [runBattle2, if_neg h]

/-- A true loop guard runs one round and recurses. -/
theorem runBattle2_step (r f : Nat) (c1 c2 : Card)
    (h : 0 < c1.hp ∧ 0 < c2.hp ∧ r ≤ 20) :
    runBattle2 r (f + 1) c1 c2 =
      ⟨roundRecOf r c1 c2 ::
        (runBattle2 (r + 1) f (afterRound1 c1 c2) (afterRound2 c1 c2)).log,
       (runBattle2 (r + 1) f (afterRound1 c1 c2) (afterRound2 c1 c2)).c1,
       (runBattle2 (r + 1) f (afterRound1 c1 c2) (afterRound2 c1 c2)).c2,
       (runBattle2 (r + 1) f (afterRound1 c1 c2) (afterRound2 c1 c2)).roundNum⟩ := by
  rw [runBattle2, if_pos h]

/-- Either no round ran (state returned untouched), or both final hp
values have been through the clamp and are nonnegative. -/
theorem runBattle2_cases (r f : Nat) (c1 c2 : Card) :
    runBattle2 r f c1 c2 = ⟨[], c1, c2, r⟩ ∨
      (0 ≤ (runBattle2 r f c1 c2).c1.hp ∧ 0 ≤ (runBattle2 r f c1 c2).c2.hp) := by
  induction f generalizing r c1 c2 with
  | zero => exact .inl rfl
  | succ f ih =>
    by_cases h : 0 < c1.hp ∧ 0 < c2.hp ∧ r ≤ 20
    · right
      rw [runBattle2_step r f c1 c2 h]
      rcases ih (r + 1) (afterRound1 c1 c2) (afterRound2 c1 c2) with heq | hge
      · rw [heq]
        exact ⟨le_max_left 0 _, le_max_left 0 _⟩
      · exact hge
    · exact .inl (runBattle2_halt r (f + 1) c1 c2 h)

/-- With fuel at least `22 - roundNum` the loop runs to completion: the
guard is false on the final state. -/
theorem runBattle2_terminal (r f : Nat) (c1 c2 : Card) (h : 22 ≤ f + r) :
    ¬(0 < (runBattle2 r f c1 c2).c1.hp ∧ 0 < (runBattle2 r f c1 c2).c2.hp ∧
      (runBattle2 r f c1 c2).roundNum ≤ 20) := by
  induction f generalizing r c1 c2 with
  | zero =>
    intro hc
    have hr : (runBattle2 r 0 c1 c2).roundNum = r := rfl
    rw [hr] at hc
    exact absurd hc.2.2 (by omega)
  | succ f ih =>
    by_cases hg : 0 < c1.hp ∧ 0 < c2.hp ∧ r ≤ 20
    · rw [runBattle2_step r f c1 c2 hg]
      exact ih (r + 1) _ _ (by omega)
    · rw [runBattle2_halt r (f + 1) c1 c2 hg]
      exact hg

/-- The final `round_num` counts the rounds fought. -/
theorem runBattle2_roundNum (r f : Nat) (c1 c2 : Card) :
    (runBattle2 r f c1 c2).roundNum = r + (runBattle2 r f c1 c2).log.length := by
  induction f generalizing r c1 c2 with
  | zero => rfl
  | succ f ih =>
    by_cases h : 0 < c1.hp ∧ 0 < c2.hp ∧ r ≤ 20
    · rw [runBattle2_step r f c1 c2 h]
      have := ih (r + 1) (afterRound1 c1 c2) (afterRound2 c1 c2)
      simp only [List.length_cons]
      omega
    · rw [runBattle2_halt r (f + 1) c1 c2 h]
      rfl

/-- `round_num` never exceeds 21 when it starts at 21 or below. -/
theorem runBattle2_roundNum_le (r f : Nat) (c1 c2 : Card) (h : r ≤ 21) :
    (runBattle2 r f c1 c2).roundNum ≤ 21 := by
  induction f generalizing r c1 c2 with
  | zero => exact h
  | succ f ih =>
    by_cases hg : 0 < c1.hp ∧ 0 < c2.hp ∧ r ≤ 20
    · rw [runBattle2_step r f c1 c2 hg]
      exact ih (r + 1) _ _ (by omega)
    · rw [runBattle2_halt r (f + 1) c1 c2 hg]
      exact h

/-- Every hp value recorded in the round log has been clamped at 0. -/
theorem runBattle2_log_nonneg (r f : Nat) (c1 c2 : Card) :
    ∀ rec ∈ (runBattle2 r f c1 c2).log, 0 ≤ rec.hp1After ∧ 0 ≤ rec.hp2After := by
  induction f generalizing r c1 c2 with
  | zero => intro rec hrec; cases hrec
  | succ f ih =>
    by_cases hg : 0 < c1.hp ∧ 0 < c2.hp ∧ r ≤ 20
    · rw [runBattle2_step r f c1 c2 hg]
      intro rec hrec
      rcases List.mem_cons.mp hrec with hhead | htail
      · subst hhead
        exact ⟨le_max_left 0 _, le_max_left 0 _⟩
      · exact ih (r + 1) _ _ rec htail
    · rw [runBattle2_halt r (f + 1) c1 c2 hg]
      intro rec hrec
      cases hrec

/-- Version 0.1's capless loop still terminates: each round removes at
least 1 hp from the second snapshot, so any natural bound on its hp
bounds the number of rounds. -/
theorem runBattle1_terminates (n : Nat) : ∀ c1 c2 : Card, c2.hp ≤ n →
    ¬(0 < (runBattle1 (n + 1) c1 c2).1.hp ∧ 0 < (runBattle1 (n + 1) c1 c2).2.hp) := by
  induction n with
  | zero =>
    intro c1 c2 hle
    have hg : ¬(0 < c1.hp ∧ 0 < c2.hp) := by
      intro ⟨_, h2⟩
      simp only [Nat.cast_zero] at hle
      linarith
    rw [runBattle1, if_neg hg]
    exact hg
  | succ n ih =>
    intro c1 c2 hle
    by_cases hg : 0 < c1.hp ∧ 0 < c2.hp
    · rw [show n + 1 + 1 = (n + 1) + 1 from rfl, runBattle1, if_pos hg]
      apply ih
      have h1 : 1 ≤ damage1Of1 c1 c2 := one_le_dmg _ _
      have hn : (0 : ℚ) ≤ n := Nat.cast_nonneg n
      have hle' : c2.hp ≤ (n : ℚ) + 1 := by push_cast at hle; linarith
      simp only [afterRound2v1]
      exact max_le hn (by linarith)
    · rw [runBattle1, if_neg hg]
      exact hg

/-- Every element named in a beats or loses-to list is itself a key of
the table (checked on the concrete table). -/
theorem table_closed : ∀ p ∈ element_relations,
    (∀ x ∈ p.2.1, ∃ q ∈ element_relations, q.1 = x) ∧
    (∀ x ∈ p.2.2, ∃ q ∈ element_relations, q.1 = x) := by decide

/-- A member of some beats list is a key of the table. -/
theorem mem_beatsOf_key (e x : String) (h : x ∈ beatsOf e) :
    ∃ q ∈ element_relations, q.1 = x := by
  simp only [beatsOf, relLookup] at h
  cases hf : element_relations.find? (fun p => p.1 == e) with
  | none => rw [hf] at h; simp at h
  | some p =>
    rw [hf] at h
    simp at h
    exact (table_closed p (List.mem_of_find?_eq_some hf)).1 x h

/-- A member of some loses-to list is a key of the table. -/
theorem mem_losesOf_key (e x : String) (h : x ∈ losesOf e) :
    ∃ q ∈ element_relations, q.1 = x := by
  simp only [losesOf, relLookup] at h
  cases hf : element_relations.find? (fun p => p.1 == e) with
  | none => rw [hf] at h; simp at h
  | some p =>
    rw [hf] at h
    simp at h
    exact (table_closed p (List.mem_of_find?_eq_some hf)).2 x h

/-- C1: the multiplier lookup (`calculate_attack`) is a pure function of
the two element strings and the static table: beats-membership gives
attack × 1.5, otherwise loses-to-membership gives attack × 0.5, otherwise
attack × 1; an attacker element absent from the table, or a defender
element listed nowhere in it, gives exactly × 1; and a defender element
listed in both sets falls to the beats branch (precedence). -/
theorem c1_multiplier_lookup :
    ∀ a d : Card,
      (d.element ∈ beatsOf a.element →
        calculate_attack a d = a.attack * (3 / 2)) ∧
      (d.element ∉ beatsOf a.element → d.element ∈ losesOf a.element →
        calculate_attack a d = a.attack * (1 / 2)) ∧
      (d.element ∉ beatsOf a.element → d.element ∉ losesOf a.element →
        calculate_attack a d = a.attack * 1) ∧
      (relLookup a.element = none → calculate_attack a d = a.attack * 1) ∧
      ((∀ p ∈ element_relations, p.1 ≠ d.element) →
        calculate_attack a d = a.attack * 1) ∧
      (d.element ∈ beatsOf a.element → d.element ∈ losesOf a.element →
        calculate_attack a d = a.attack * (3 / 2)) := by
  intro a d
  refine ⟨calculate_attack_beats a d, calculate_attack_loses a d, ?_, ?_, ?_, ?_⟩
  · intro h1 h2
    rw [mul_one]
    exact calculate_attack_neutral a d h1 h2
  · intro hnone
    rw [mul_one]
    have hb : beatsOf a.element = [] := by simp [beatsOf, hnone]
    have hl : losesOf a.element = [] := by simp [losesOf, hnone]
    exact calculate_attack_neutral a d (by rw [hb]; exact List.not_mem_nil _)
      (by rw [hl]; exact List.not_mem_nil _)
  · intro hun
    rw [mul_one]
    refine calculate_attack_neutral a d (fun hmem => ?_) (fun hmem => ?_)
    · obtain ⟨q, hq, hq1⟩ := mem_beatsOf_key a.element d.element hmem
      exact hun q hq hq1
    · obtain ⟨q, hq, hq1⟩ := mem_losesOf_key a.element d.element hmem
      exact hun q hq hq1
  · intro hb _
    exact calculate_attack_beats a d hb

/-- Witness for C1 at concrete inputs: 火 beats 木 (× 1.5), 木 loses to
火 (× 0.5), 风 is unlisted on either side (× 1), and 龙 — listed as both
beating and losing to 龙 — gets the beats precedence (× 1.5). -/
theorem c1_multiplier_lookup_witness :
    calculate_attack (mkCard2 "a" 1 2 0 "火" "") (mkCard2 "b" 1 2 0 "木" "") =
        (mkCard2 "a" 1 2 0 "火" "").attack * (3 / 2) ∧
      calculate_attack (mkCard2 "a" 1 2 0 "木" "") (mkCard2 "b" 1 2 0 "火" "") =
        (mkCard2 "a" 1 2 0 "木" "").attack * (1 / 2) ∧
      calculate_attack (mkCard2 "a" 1 2 0 "风" "") (mkCard2 "b" 1 2 0 "火" "") =
        (mkCard2 "a" 1 2 0 "风" "").attack * 1 ∧
      calculate_attack (mkCard2 "a" 1 2 0 "火" "") (mkCard2 "b" 1 2 0 "风" "") =
        (mkCard2 "a" 1 2 0 "火" "").attack * 1 ∧
      calculate_attack (mkCard2 "a" 1 2 0 "龙" "") (mkCard2 "b" 1 2 0 "龙" "") =
        (mkCard2 "a" 1 2 0 "龙" "").attack * (3 / 2) :=
  ⟨(c1_multiplier_lookup _ _).1 (by decide),
   (c1_multiplier_lookup _ _).2.1 (by decide) (by decide),
   (c1_multiplier_lookup _ _).2.2.2.1 (by decide),
   (c1_multiplier_lookup _ _).2.2.2.2.1 (by decide),
   (c1_multiplier_lookup _ _).2.2.2.2.2 (by decide) (by decide)⟩

/-- C9: version 0.1 derives `score = hp + 4·attack + 3·defense`, version
0.2 derives `score = hp + 4·attack + 4·defense`, and a version-0.2 card
with hp 100, attack 20, defense 10 scores 220. -/
theorem c9_score_formula :
    ∀ (name : String) (hp attack defense : ℚ) (element rarity : String),
      (mkCard1 name hp attack defense element rarity).score =
          hp + 4 * attack + 3 * defense ∧
        (mkCard2 name hp attack defense element rarity).score =
          hp + 4 * attack + 4 * defense ∧
        (mkCard2 name 100 20 10 element rarity).score = 220 := by
  intro name hp attack defense element rarity
  refine ⟨rfl, rfl, ?_⟩
  norm_num [mkCard2]

/-- Unfolding `simulate_battle` on a pair of parsed selections. -/
theorem simulate_battle_some_some (cards : List Card) (n1 n2 : Int) :
    simulate_battle cards (some n1) (some n2) =
      if cards.length < 2 then (.errNotEnoughCards, [], cards)
      else if n1 - 1 < 0 ∨ (cards.length : Int) ≤ n1 - 1 ∨ n2 - 1 < 0 ∨
          (cards.length : Int) ≤ n2 - 1 then
        (.errInvalidIndex, [], cards)
      else
        (.finished (battleVerdict (duelOf cards n1 n2).c1 (duelOf cards n1 n2).c2
            (duelOf cards n1 n2).roundNum),
         (duelOf cards n1 n2).log, cards) := rfl

/-- Unfolding `simulate_battle` when the first selection fails to parse. -/
theorem simulate_battle_none_fst (cards : List Card) (input2 : Option Int) :
    simulate_battle cards none input2 =
      if cards.length < 2 then (.errNotEnoughCards, [], cards)
      else (.errValueError, [], cards) := by
  cases input2 <;> rfl

/-- Unfolding `simulate_battle` when the second selection fails to parse. -/
theorem simulate_battle_some_none (cards : List Card) (n1 : Int) :
    simulate_battle cards (some n1) none =
      if cards.length < 2 then (.errNotEnoughCards, [], cards)
      else (.errValueError, [], cards) := rfl

/-- C8: a duel never changes the stored collection — `simulate_battle`
returns the card list exactly as it received it, whatever the inputs and
however much damage the snapshots take. -/
theorem c8_collection_unchanged :
    ∀ (cards : List Card) (input1 input2 : Option Int),
      (simulate_battle cards input1 input2).2.2 = cards := by
  intro cards i1 i2
  cases i1 with
  | none => rw [simulate_battle_none_fst cards i2]; split <;> rfl
  | some n1 =>
    cases i2 with
    | none => rw [simulate_battle_some_none cards n1]; split <;> rfl
    | some n2 =>
      rw [simulate_battle_some_some cards n1 n2]
      split
      · rfl
      · split <;> rfl

/-- C7: with fewer than two cards, an unparsable selection, or an
out-of-range selection index, `simulate_battle` reports a validation
failure: the outcome is one of the three error reports, the round log is
empty (no round executed), and the stored collection is unchanged. -/
theorem c7_input_validation :
    ∀ (cards : List Card) (input1 input2 : Option Int),
      (cards.length < 2 ∨ input1 = none ∨ input2 = none ∨
        (∃ n1 n2, input1 = some n1 ∧ input2 = some n2 ∧
          (n1 - 1 < 0 ∨ (cards.length : Int) ≤ n1 - 1 ∨ n2 - 1 < 0 ∨
           (cards.length : Int) ≤ n2 - 1))) →
      ((simulate_battle cards input1 input2).1 = .errNotEnoughCards ∨
        (simulate_battle cards input1 input2).1 = .errInvalidIndex ∨
        (simulate_battle cards input1 input2).1 = .errValueError) ∧
      (simulate_battle cards input1 input2).2.1 = [] ∧
      (simulate_battle cards input1 input2).2.2 = cards := by
  intro cards i1 i2 h
  by_cases hl : cards.length < 2
  · cases i1 with
    | none =>
      rw [simulate_battle_none_fst cards i2, if_pos hl]
      exact ⟨.inl rfl, rfl, rfl⟩
    | some n1 =>
      cases i2 with
      | none =>
        rw [simulate_battle_some_none cards n1, if_pos hl]
        exact ⟨.inl rfl, rfl, rfl⟩
      | some n2 =>
        rw [simulate_battle_some_some cards n1 n2, if_pos hl]
        exact ⟨.inl rfl, rfl, rfl⟩
  · rcases h with h | h | h | ⟨n1, n2, h1, h2, hrange⟩
    · exact absurd h hl
    · subst h
      rw [simulate_battle_none_fst cards i2, if_neg hl]
      exact ⟨.inr (.inr rfl), rfl, rfl⟩
    · subst h
      cases i1 with
      | none =>
        rw [simulate_battle_none_fst cards none, if_neg hl]
        exact ⟨.inr (.inr rfl), rfl, rfl⟩
      | some n1 =>
        rw [simulate_battle_some_none cards n1, if_neg hl]
        exact ⟨.inr (.inr rfl), rfl, rfl⟩
    · subst h1
      subst h2
      rw [simulate_battle_some_some cards n1 n2, if_neg hl, if_pos hrange]
      exact ⟨.inr (.inl rfl), rfl, rfl⟩

/-- Witness for C7: an empty collection with a well-formed selection is
rejected with no log and no mutation. -/
theorem c7_input_validation_witness :
    ((simulate_battle [] (some 1) (some 1)).1 = .errNotEnoughCards ∨
      (simulate_battle [] (some 1) (some 1)).1 = .errInvalidIndex ∨
      (simulate_battle [] (some 1) (some 1)).1 = .errValueError) ∧
    (simulate_battle [] (some 1) (some 1)).2.1 = [] ∧
    (simulate_battle [] (some 1) (some 1)).2.2 = [] :=
  c7_input_validation [] (some 1) (some 1) (.inl (by norm_num))

/-- The code's verdict block agrees with the claimed priority-order rule
whenever the final state satisfies (a) both hp positive forces the round
counter past the cap and (b) a counter at or past 20 implies both hp
values have been clamped — both established for real runs below. -/
theorem battleVerdict_eq_spec (a b : Card) (n : Nat)
    (hcap : 0 < a.hp → 0 < b.hp → 20 < n)
    (hneg : 20 ≤ n → 0 ≤ a.hp ∧ 0 ≤ b.hp) :
    battleVerdict a b n = verdictSpecC2 a b := by
  by_cases hA : 0 < a.hp <;> by_cases hB : 0 < b.hp
  · have h20 : n ≥ 20 := Nat.le_of_lt (hcap hA hB)
    by_cases hEq : a.hp = b.hp <;>
      simp [battleVerdict, verdictSpecC2, h20, hA, hB, hEq,
        not_le.mpr hA, not_le.mpr hB]
  · have hBle : b.hp ≤ 0 := le_of_not_lt hB
    by_cases h20 : n ≥ 20
    · have hB0 : b.hp = 0 := le_antisymm hBle (hneg h20).2
      have hne : a.hp ≠ b.hp := by rw [hB0]; exact ne_of_gt hA
      have hgt : b.hp < a.hp := by rw [hB0]; exact hA
      simp [battleVerdict, verdictSpecC2, h20, hA, hB, hne, hgt, not_le.mpr hA]
    · simp [battleVerdict, verdictSpecC2, h20, hA, hB, not_le.mpr hA]
  · have hAle : a.hp ≤ 0 := le_of_not_lt hA
    by_cases h20 : n ≥ 20
    · have hA0 : a.hp = 0 := le_antisymm hAle (hneg h20).1
      have hne : a.hp ≠ b.hp := by rw [hA0]; exact (ne_of_gt hB).symm
      have hngt : ¬b.hp < a.hp := by rw [hA0]; exact not_lt.mpr hB.le
      simp [battleVerdict, verdictSpecC2, h20, hA, hB, hne, hngt, hAle]
    · simp [battleVerdict, verdictSpecC2, h20, hA, hB, hAle]
  · have hAle : a.hp ≤ 0 := le_of_not_lt hA
    have hBle : b.hp ≤ 0 := le_of_not_lt hB
    by_cases h20 : n ≥ 20 <;>
      simp [battleVerdict, verdictSpecC2, h20, hA, hB, hAle, hBle]

/-- C2: on every duel run by the version-0.2 loop, the verdict block
computes exactly the claimed priority rule: the hp-comparison tie-break
is applied precisely when the loop ended with both hp still positive
(that is, the only exits left are cap exits), and otherwise the knockout
rule (both at ≤ 0 a draw, exactly one at ≤ 0 a win for the survivor)
decides. -/
theorem c2_verdict_rule :
    ∀ c1 c2 : Card,
      battleVerdict (runBattle2 1 21 c1 c2).c1 (runBattle2 1 21 c1 c2).c2
          (runBattle2 1 21 c1 c2).roundNum =
        verdictSpecC2 (runBattle2 1 21 c1 c2).c1 (runBattle2 1 21 c1 c2).c2 := by
  intro c1 c2
  have hterm := runBattle2_terminal 1 21 c1 c2 (by norm_num)
  have hcap : 0 < (runBattle2 1 21 c1 c2).c1.hp → 0 < (runBattle2 1 21 c1 c2).c2.hp →
      20 < (runBattle2 1 21 c1 c2).roundNum := by
    intro h1 h2
    by_contra hle
    exact hterm ⟨h1, h2, Nat.le_of_not_lt hle⟩
  apply battleVerdict_eq_spec _ _ _ hcap
  intro h20
  rcases runBattle2_cases 1 21 c1 c2 with heq | hge
  · rw [heq] at h20
    exact absurd h20 (by norm_num)
  · exact hge

/-- C3: both damages of a round are functions of the pre-round state
only — they do not depend on either hp field at all — and both land in
the same step: a round in which each side deals at least the opponent's
remaining hp ends with both hp exactly 0 and a draw verdict. -/
theorem c3_simultaneity :
    ∀ c1 c2 : Card,
      (∀ h1 h2 : ℚ,
        damage1Of { c1 with hp := h1 } { c2 with hp := h2 } = damage1Of c1 c2 ∧
        damage2Of { c1 with hp := h1 } { c2 with hp := h2 } = damage2Of c1 c2) ∧
      (∀ r f : Nat, 0 < c1.hp → 0 < c2.hp → r ≤ 20 →
        c2.hp ≤ damage1Of c1 c2 → c1.hp ≤ damage2Of c1 c2 →
        (runBattle2 r (f + 1) c1 c2).c1.hp = 0 ∧
        (runBattle2 r (f + 1) c1 c2).c2.hp = 0 ∧
        battleVerdict (runBattle2 r (f + 1) c1 c2).c1 (runBattle2 r (f + 1) c1 c2).c2
          (runBattle2 r (f + 1) c1 c2).roundNum = .draw) := by
  intro c1 c2
  constructor
  · intro h1 h2
    exact ⟨rfl, rfl⟩
  · intro r f h1 h2 hr hle1 hle2
    have ha1 : (afterRound1 c1 c2).hp = 0 := max_eq_left (by linarith)
    have ha2 : (afterRound2 c1 c2).hp = 0 := max_eq_left (by linarith)
    have hrest : runBattle2 (r + 1) f (afterRound1 c1 c2) (afterRound2 c1 c2) =
        ⟨[], afterRound1 c1 c2, afterRound2 c1 c2, r + 1⟩ :=
      runBattle2_halt _ _ _ _ (fun hc => by rw [ha1] at hc; exact lt_irrefl 0 hc.1)
    rw [runBattle2_step r f c1 c2 ⟨h1, h2, hr⟩, hrest]
    refine ⟨ha1, ha2, ?_⟩
    show battleVerdict (afterRound1 c1 c2) (afterRound2 c1 c2) (r + 1) = .draw
    by_cases h20 : r + 1 ≥ 20
    · unfold battleVerdict
      rw [if_pos h20, if_pos (Or.inl ⟨le_of_eq ha1, le_of_eq ha2⟩)]
    · unfold battleVerdict
      rw [if_neg h20, if_pos ⟨le_of_eq ha1, le_of_eq ha2⟩]

/-- Witness for C3: two relation-free cards with hp 1 and attack 5 knock
each other out in round 1 and the duel is a draw. -/
theorem c3_simultaneity_witness :
    (runBattle2 1 21 wSim1 wSim2).c1.hp = 0 ∧
    (runBattle2 1 21 wSim1 wSim2).c2.hp = 0 ∧
    battleVerdict (runBattle2 1 21 wSim1 wSim2).c1 (runBattle2 1 21 wSim1 wSim2).c2
      (runBattle2 1 21 wSim1 wSim2).roundNum = .draw := by
  have hd1 : damage1Of wSim1 wSim2 = 5 := by
    rw [damage1Of, calc_blank wSim1 wSim2 rfl]
    show dmg 5 0 = 5
    rw [dmg_of_ge 5 0 (by norm_num)]
    norm_num
  have hd2 : damage2Of wSim1 wSim2 = 5 := by
    rw [damage2Of, calc_blank wSim2 wSim1 rfl]
    show dmg 5 0 = 5
    rw [dmg_of_ge 5 0 (by norm_num)]
    norm_num
  exact (c3_simultaneity wSim1 wSim2).2 1 20 (by norm_num [wSim1, mkCard2])
    (by norm_num [wSim2, mkCard2]) (by norm_num)
    (by rw [hd1]; norm_num [wSim2, mkCard2]) (by rw [hd2]; norm_num [wSim1, mkCard2])

/-- C4 is false on the code as stated: attacker 火 with attack 11
against defender 水 with defense 5 has effective power 5.5, strictly
above the defense, yet the damage dealt is max(1, 0.5) = 1 and not
power − defense = 0.5. -/
theorem c4_damage_counterexample :
    cHalf2.defense < calculate_attack cHalf1 cHalf2 ∧
      damage1Of cHalf1 cHalf2 = 1 ∧
      calculate_attack cHalf1 cHalf2 - cHalf2.defense = 1 / 2 := by
  have hc : calculate_attack cHalf1 cHalf2 = 11 / 2 := by
    rw [calc_fire_water cHalf1 cHalf2 rfl rfl]
    show (11 : ℚ) * (1 / 2) = 11 / 2
    norm_num
  refine ⟨?_, ?_, ?_⟩
  · rw [hc]
    show (5 : ℚ) < 11 / 2
    norm_num
  · rw [damage1Of, hc]
    show dmg (11 / 2) 5 = 1
    exact dmg_of_lt _ _ (by norm_num)
  · rw [hc]
    show (11 : ℚ) / 2 - 5 = 1 / 2
    norm_num

/-- C4 (amended): the per-round damage equals power − defense only when
that difference is at least 1; whenever the power fails to exceed the
defense by a full point the damage is exactly 1 — so each direction of
every round deals at least 1. -/
theorem c4_damage_floor_amended :
    ∀ c1 c2 : Card,
      (1 ≤ damage1Of c1 c2 ∧ 1 ≤ damage2Of c1 c2) ∧
      ∀ p d : ℚ, (d + 1 ≤ p → dmg p d = p - d) ∧ (p < d + 1 → dmg p d = 1) := by
  intro c1 c2
  exact ⟨⟨one_le_dmg _ _, one_le_dmg _ _⟩, fun p d => ⟨dmg_of_ge p d, dmg_of_lt p d⟩⟩

/-- Witness for C4 (amended) at concrete inputs. -/
theorem c4_damage_floor_amended_witness :
    (1 ≤ damage1Of dummyCard dummyCard ∧ 1 ≤ damage2Of dummyCard dummyCard) ∧
      dmg 5 3 = 5 - 3 ∧ dmg 1 3 = 1 :=
  ⟨(c4_damage_floor_amended dummyCard dummyCard).1,
   ((c4_damage_floor_amended dummyCard dummyCard).2 5 3).1 (by norm_num),
   ((c4_damage_floor_amended dummyCard dummyCard).2 1 3).2 (by norm_num)⟩

/-- C5: the version-0.2 loop runs at most 20 rounds and its guard is
decided (terminated) within fuel 21; every hp value it logs is
nonnegative after clamping; and the capless version-0.1 loop also
terminates — any natural bound on the second snapshot's hp bounds the
rounds, because every round deals it at least 1 damage. -/
theorem c5_termination_and_clamp :
    (∀ c1 c2 : Card,
      (runBattle2 1 21 c1 c2).log.length ≤ 20 ∧
      ¬(0 < (runBattle2 1 21 c1 c2).c1.hp ∧ 0 < (runBattle2 1 21 c1 c2).c2.hp ∧
        (runBattle2 1 21 c1 c2).roundNum ≤ 20) ∧
      ∀ rec ∈ (runBattle2 1 21 c1 c2).log, 0 ≤ rec.hp1After ∧ 0 ≤ rec.hp2After) ∧
    ∀ (c1 c2 : Card) (n : Nat), c2.hp ≤ n →
      ¬(0 < (runBattle1 (n + 1) c1 c2).1.hp ∧ 0 < (runBattle1 (n + 1) c1 c2).2.hp) := by
  constructor
  · intro c1 c2
    refine ⟨?_, runBattle2_terminal 1 21 c1 c2 (by norm_num),
      runBattle2_log_nonneg 1 21 c1 c2⟩
    have h1 := runBattle2_roundNum 1 21 c1 c2
    have h2 := runBattle2_roundNum_le 1 21 c1 c2 (by norm_num)
    omega
  · exact fun c1 c2 n h => runBattle1_terminates n c1 c2 h

/-- Witness for C5: a one-round duel whose logged hp values are clamped
at 0, and a version-0.1 duel of two hp-1 cards that is over within the
bound. -/
theorem c5_termination_and_clamp_witness :
    (0 ≤ (roundRecOf 1 wCap1 wCap2).hp1After ∧ 0 ≤ (roundRecOf 1 wCap1 wCap2).hp2After) ∧
    ¬(0 < (runBattle1 2 wSim1 wSim2).1.hp ∧ 0 < (runBattle1 2 wSim1 wSim2).2.hp) := by
  have hd1 : damage1Of wCap1 wCap2 = 10 := by
    rw [damage1Of, calc_blank wCap1 wCap2 rfl]
    show dmg 10 0 = 10
    rw [dmg_of_ge 10 0 (by norm_num)]
    norm_num
  have hd2 : damage2Of wCap1 wCap2 = 10 := by
    rw [damage2Of, calc_blank wCap2 wCap1 rfl]
    show dmg 10 0 = 10
    rw [dmg_of_ge 10 0 (by norm_num)]
    norm_num
  have ha1 : (afterRound1 wCap1 wCap2).hp = 0 := by
    show max 0 (wCap1.hp - damage2Of wCap1 wCap2) = 0
    rw [hd2]
    exact max_eq_left (by norm_num [wCap1, mkCard2])
  have hrest : runBattle2 2 20 (afterRound1 wCap1 wCap2) (afterRound2 wCap1 wCap2) =
      ⟨[], afterRound1 wCap1 wCap2, afterRound2 wCap1 wCap2, 2⟩ :=
    runBattle2_halt _ _ _ _ (fun hc => by rw [ha1] at hc; exact lt_irrefl 0 hc.1)
  have hfull : runBattle2 1 21 wCap1 wCap2 =
      ⟨[roundRecOf 1 wCap1 wCap2], afterRound1 wCap1 wCap2, afterRound2 wCap1 wCap2, 2⟩ := by
    have hstep := runBattle2_step 1 20 wCap1 wCap2
      ⟨by norm_num [wCap1, mkCard2], by norm_num [wCap2, mkCard2], by norm_num⟩
    rw [hrest] at hstep
    exact hstep
  have hmem : roundRecOf 1 wCap1 wCap2 ∈ (runBattle2 1 21 wCap1 wCap2).log := by
    rw [hfull]
    exact List.mem_singleton_self _
  exact ⟨(c5_termination_and_clamp.1 wCap1 wCap2).2.2 (roundRecOf 1 wCap1 wCap2) hmem,
    c5_termination_and_clamp.2 wSim1 wSim2 1 (by norm_num [wSim2, mkCard2])⟩

/-- C6 is false on the battle snapshots: after the one round of this
duel the surviving snapshot state has hp 0 but still carries the score
computed from its starting hp (21 = 1 + 4·5 + 4·0), which no longer
matches the formula on the current fields (20 = 0 + 4·5 + 4·0) — battle
hp decrements never re-derive `score`. -/
theorem c6_stale_score_counterexample :
    (runBattle2 1 21 cSta1 cSta2).c1.score ≠
      (runBattle2 1 21 cSta1 cSta2).c1.hp + 4 * (runBattle2 1 21 cSta1 cSta2).c1.attack +
        4 * (runBattle2 1 21 cSta1 cSta2).c1.defense := by
  have hd2 : damage2Of cSta1 cSta2 = 5 := by
    rw [damage2Of, calc_blank cSta2 cSta1 rfl]
    show dmg 5 0 = 5
    rw [dmg_of_ge 5 0 (by norm_num)]
    norm_num
  have ha1 : (afterRound1 cSta1 cSta2).hp = 0 := by
    show max 0 (cSta1.hp - damage2Of cSta1 cSta2) = 0
    rw [hd2]
    exact max_eq_left (by norm_num [cSta1, mkCard2])
  have hrest : runBattle2 2 20 (afterRound1 cSta1 cSta2) (afterRound2 cSta1 cSta2) =
      ⟨[], afterRound1 cSta1 cSta2, afterRound2 cSta1 cSta2, 2⟩ :=
    runBattle2_halt _ _ _ _ (fun hc => by rw [ha1] at hc; exact lt_irrefl 0 hc.1)
  have hfull : runBattle2 1 21 cSta1 cSta2 =
      ⟨[roundRecOf 1 cSta1 cSta2], afterRound1 cSta1 cSta2, afterRound2 cSta1 cSta2, 2⟩ := by
    have hstep := runBattle2_step 1 20 cSta1 cSta2
      ⟨by norm_num [cSta1, mkCard2], by norm_num [cSta2, mkCard2], by norm_num⟩
    rw [hrest] at hstep
    exact hstep
  rw [hfull]
  show (afterRound1 cSta1 cSta2).score ≠ (afterRound1 cSta1 cSta2).hp +
    4 * (afterRound1 cSta1 cSta2).attack + 4 * (afterRound1 cSta1 cSta2).defense
  rw [ha1]
  show cSta1.score ≠ 0 + 4 * cSta1.attack + 4 * cSta1.defense
  norm_num [cSta1, mkCard2]

/-- C6 (amended): the score invariant holds at construction and through
`modify_card` (both re-derive `score` from the updated fields), but a
battle round updates only the snapshot's hp and leaves its `score` field
at the construction-time value; the stale snapshot score is never
displayed or used. -/
theorem c6_score_consistency_amended :
    (∀ (name : String) (hp attack defense : ℚ) (element rarity : String),
      (mkCard2 name hp attack defense element rarity).score =
        (mkCard2 name hp attack defense element rarity).hp +
          4 * (mkCard2 name hp attack defense element rarity).attack +
          4 * (mkCard2 name hp attack defense element rarity).defense) ∧
    (∀ (card : Card) (nh na nd : Option ℚ) (nel nr : Option String),
      (modify_card card nh na nd nel nr).score =
        (modify_card card nh na nd nel nr).hp +
          4 * (modify_card card nh na nd nel nr).attack +
          4 * (modify_card card nh na nd nel nr).defense) ∧
    (∀ c1 c2 : Card,
      (afterRound1 c1 c2).score = c1.score ∧ (afterRound2 c1 c2).score = c2.score ∧
      (afterRound1 c1 c2).hp = max 0 (c1.hp - damage2Of c1 c2) ∧
      (afterRound2 c1 c2).hp = max 0 (c2.hp - damage1Of c1 c2)) :=
  ⟨fun _ _ _ _ _ _ => rfl, fun _ _ _ _ _ _ => rfl, fun _ _ => ⟨rfl, rfl, rfl, rfl⟩⟩

/-- C10 is false as stated in its corner: attacker 火 with attack 1
against defender 木 with defense 1 has effective power 1.5 > 1, but the
damage dealt is the floor value 1, not attack × 1.5 − defense = 0.5. -/
theorem c10_fractional_damage_counterexample :
    calculate_attack cFr1 cFr2 = cFr1.attack * (3 / 2) ∧
      cFr2.defense < calculate_attack cFr1 cFr2 ∧
      damage1Of cFr1 cFr2 = 1 ∧
      cFr1.attack * (3 / 2) - cFr2.defense = 1 / 2 := by
  have hc : calculate_attack cFr1 cFr2 = 3 / 2 := by
    rw [calc_fire_wood cFr1 cFr2 rfl rfl]
    show (1 : ℚ) * (3 / 2) = 3 / 2
    norm_num
  refine ⟨calc_fire_wood cFr1 cFr2 rfl rfl, ?_, ?_, ?_⟩
  · rw [hc]
    show (1 : ℚ) < 3 / 2
    norm_num
  · rw [damage1Of, hc]
    show dmg (3 / 2) 1 = 1
    exact dmg_of_lt _ _ (by norm_num)
  · show (1 : ℚ) * (3 / 2) - 1 = 1 / 2
    norm_num

/-- C10 (amended): when an elemental multiplier applies and the power
exceeds the defense by at least 1 the damage is exactly
attack × multiplier − defense; such a value is never an integer when the
attack stat is odd (for either multiplier), and snapshot hp values do
become non-integral: the duel of `wFr1` (hp 2, attack 5, 火) against
`wFr2` (hp 7, attack 3, 木) ends with the winner at hp 1/2.  (When the
power exceeds the defense by less than 1 the floor forces damage 1, the
corner the original claim misses.) -/
theorem c10_fractional_damage_amended :
    (∀ a d : Card, d.element ∈ beatsOf a.element →
      d.defense + 1 ≤ a.attack * (3 / 2) →
      damage1Of a d = a.attack * (3 / 2) - d.defense) ∧
    (∀ a d : Card, d.element ∉ beatsOf a.element → d.element ∈ losesOf a.element →
      d.defense + 1 ≤ a.attack * (1 / 2) →
      damage1Of a d = a.attack * (1 / 2) - d.defense) ∧
    (∀ n k : Int, Odd n →
      (∀ m : Int, (m : ℚ) ≠ (n : ℚ) * (3 / 2) - (k : ℚ)) ∧
      (∀ m : Int, (m : ℚ) ≠ (n : ℚ) * (1 / 2) - (k : ℚ))) ∧
    (runBattle2 1 21 wFr1 wFr2).c1.hp = 1 / 2 ∧
    (∀ m : Int, (m : ℚ) ≠ (runBattle2 1 21 wFr1 wFr2).c1.hp) := by
  have hc12 : calculate_attack wFr1 wFr2 = 15 / 2 := by
    rw [calc_fire_wood wFr1 wFr2 rfl rfl]
    show (5 : ℚ) * (3 / 2) = 15 / 2
    norm_num
  have hc21 : calculate_attack wFr2 wFr1 = 3 / 2 := by
    rw [calc_wood_fire wFr2 wFr1 rfl rfl]
    show (3 : ℚ) * (1 / 2) = 3 / 2
    norm_num
  have hd1 : damage1Of wFr1 wFr2 = 15 / 2 := by
    rw [damage1Of, hc12]
    show dmg (15 / 2) 0 = 15 / 2
    rw [dmg_of_ge _ _ (by norm_num)]
    norm_num
  have hd2 : damage2Of wFr1 wFr2 = 3 / 2 := by
    rw [damage2Of, hc21]
    show dmg (3 / 2) 0 = 3 / 2
    rw [dmg_of_ge _ _ (by norm_num)]
    norm_num
  have ha1 : (afterRound1 wFr1 wFr2).hp = 1 / 2 := by
    show max 0 (wFr1.hp - damage2Of wFr1 wFr2) = 1 / 2
    rw [hd2]
    show max (0 : ℚ) (2 - 3 / 2) = 1 / 2
    rw [max_eq_right (by norm_num)]
    norm_num
  have ha2 : (afterRound2 wFr1 wFr2).hp = 0 := by
    show max 0 (wFr2.hp - damage1Of wFr1 wFr2) = 0
    rw [hd1]
    show max (0 : ℚ) (7 - 15 / 2) = 0
    exact max_eq_left (by norm_num)
  have hrest : runBattle2 2 20 (afterRound1 wFr1 wFr2) (afterRound2 wFr1 wFr2) =
      ⟨[], afterRound1 wFr1 wFr2, afterRound2 wFr1 wFr2, 2⟩ :=
    runBattle2_halt _ _ _ _ (fun hc => by rw [ha2] at hc; exact lt_irrefl 0 hc.2.1)
  have hfull : runBattle2 1 21 wFr1 wFr2 =
      ⟨[roundRecOf 1 wFr1 wFr2], afterRound1 wFr1 wFr2, afterRound2 wFr1 wFr2, 2⟩ := by
    have hstep := runBattle2_step 1 20 wFr1 wFr2
      ⟨by norm_num [wFr1, mkCard2], by norm_num [wFr2, mkCard2], by norm_num⟩
    rw [hrest] at hstep
    exact hstep
  have hfinal : (runBattle2 1 21 wFr1 wFr2).c1.hp = 1 / 2 := by
    rw [hfull]
    exact ha1
  refine ⟨?_, ?_, ?_, hfinal, ?_⟩
  · intro a d hmem hge
    rw [damage1Of, calculate_attack_beats a d hmem]
    exact dmg_of_ge _ _ hge
  · intro a d hnmem hmem hge
    rw [damage1Of, calculate_attack_loses a d hnmem hmem]
    exact dmg_of_ge _ _ hge
  · rintro n k ⟨j, hj⟩
    constructor <;> intro m hm
    · have h2 : (2 * (m : ℚ)) = 3 * (n : ℚ) - 2 * (k : ℚ) := by linarith
      have h3 : (2 * m : ℤ) = 3 * n - 2 * k := by exact_mod_cast h2
      omega
    · have h2 : (2 * (m : ℚ)) = (n : ℚ) - 2 * (k : ℚ) := by linarith
      have h3 : (2 * m : ℤ) = n - 2 * k := by exact_mod_cast h2
      omega
  · intro m hm
    rw [hfinal] at hm
    have h2 : (2 * (m : ℚ)) = 1 := by linarith
    have h3 : (2 * m : ℤ) = 1 := by exact_mod_cast h2
    omega

/-- Witness for C10 (amended) at concrete inputs: 火/attack 5 vs
木/defense 1 deals exactly 7.5 − 1; 火/attack 11 vs 水/defense 5 deals
exactly 5.5 − 5 is out of reach (difference below 1), so the second
conjunct is witnessed with defense 1 instead: 5.5 − 1; and 3 is not
1 × 1.5 − 0. -/
theorem c10_fractional_damage_amended_witness :
    damage1Of (mkCard2 "a" 1 5 0 "火" "") (mkCard2 "b" 1 0 1 "木" "") =
      (mkCard2 "a" 1 5 0 "火" "").attack * (3 / 2) - (mkCard2 "b" 1 0 1 "木" "").defense ∧
    damage1Of (mkCard2 "a" 1 11 0 "火" "") (mkCard2 "b" 1 0 1 "水" "") =
      (mkCard2 "a" 1 11 0 "火" "").attack * (1 / 2) - (mkCard2 "b" 1 0 1 "水" "").defense ∧
    ((3 : ℤ) : ℚ) ≠ ((1 : ℤ) : ℚ) * (3 / 2) - ((0 : ℤ) : ℚ) :=
  ⟨c10_fractional_damage_amended.1 _ _ (by decide) (by norm_num [mkCard2]),
   c10_fractional_damage_amended.2.1 _ _ (by decide) (by decide) (by norm_num [mkCard2]),
   (c10_fractional_damage_amended.2.2.1 1 0 ⟨0, by norm_num⟩).1 3⟩
